import Mathlib

/-!
Verification of the SciRAG enhanced-processing pipeline.

Shallow embedding of `scirag/enhanced_processing/mathematical_processor.py`,
`glossary_extractor.py`, `asset_processor.py`, `monitoring.py`,
`document_processor.py` and `scirag/scirag_enhanced.py`.

Python strings are modelled as `String`, floats as `ℚ` (all float constants in
the source are small decimals and every claim is about order/equality that the
corresponding float computation also satisfies), `None`-able values as `Option`,
and a Python `try`-block as an `Except String` computation.
-/

namespace SciRag

/-- Whitespace characters stripped by Python `str.strip()` (ASCII subset). -/
def isPyWs (c : Char) : Bool :=
  c = ' ' || c = '\t' || c = '\n' || c = '\r' || c = '\x0b' || c = '\x0c'

/-- Python `str.strip()` on a character list: drop whitespace from both ends. -/
def pyStripList (l : List Char) : List Char :=
  ((l.dropWhile isPyWs).reverse.dropWhile isPyWs).reverse

/-- Python `str.strip()`. -/
def pyStrip (s : String) : String := ⟨pyStripList s.data⟩

/-- Python `sub in s` (substring containment), on lists. -/
def containsList (sub : List Char) : List Char → Bool
  | [] => sub.isEmpty
  | c :: cs => sub.isPrefixOf (c :: cs) || containsList sub cs

/-- Python `sub in s` (substring containment). -/
def pyContains (s sub : String) : Bool := containsList sub.data s.data

/-- Python `str.lower()` (ASCII subset). -/
def pyLower (s : String) : String := ⟨s.data.map Char.toLower⟩

/-!
A one-pass rewrite engine modelling `re.sub`: scan left to right; at each
position try the matcher; on a match emit its replacement and resume after the
consumed text (non-overlapping, leftmost first, the replacement is not
rescanned); otherwise keep the character and move on.  The fuel argument is
only there to make the recursion structural; `fuel = length` always suffices
because every step consumes at least one character.
-/

/-- One `re.sub`-style pass with matcher `m`; `m l` returns
`(replacement, rest-after-match)` on a match at the head of `l`. -/
def rewriteGo (m : List Char → Option (List Char × List Char)) :
    Nat → List Char → List Char
  | _, [] => []
  | 0, l => l
  | fuel + 1, c :: cs =>
    match m (c :: cs) with
    | some (r, rest) => r ++ rewriteGo m fuel rest
    | none => c :: rewriteGo m fuel cs

/-- Run a rewrite pass over a string. -/
def runRewrite (m : List Char → Option (List Char × List Char)) (s : String) :
    String := ⟨rewriteGo m s.data.length s.data⟩

/-- Matcher for a literal pattern: `re.sub(re.escape-like literal, repl, s)`. -/
def litMatcher (pat repl : List Char) (l : List Char) :
    Option (List Char × List Char) :=
  if pat.isPrefixOf l then some (repl, l.drop pat.length) else none

/-- `re.sub` with a literal pattern (all the environment-wrapper and
Greek-letter substitutions in `_normalize_latex` are literal). -/
def pyReplaceAll (s pat repl : String) : String :=
  runRewrite (litMatcher pat.data repl.data) s

/-- Strip a literal prefix, or fail. -/
def stripPrefixCh (pat l : List Char) : Option (List Char) :=
  if pat.isPrefixOf l then some (l.drop pat.length) else none

/-- Match `\x7b([^\x7d]+)\x7d` at the head: an opening brace, a nonempty run of
non-closing-brace characters (greedy, exactly up to the next closing brace),
and the closing brace.  Returns the captured group and the rest. -/
def matchBraceArg : List Char → Option (List Char × List Char)
  | c :: rest =>
    if c = '\x7b' then
      let a := rest.takeWhile (fun d => !(d = '\x7d'))
      match rest.dropWhile (fun d => !(d = '\x7d')) with
      | d :: rest2 => if d = '\x7d' && !a.isEmpty then some (a, rest2) else none
      | [] => none
    else none
  | [] => none

/-- Matcher for `\\frac\x7b([^\x7d]+)\x7d\x7b([^\x7d]+)\x7d → (\1)/(\2)`. -/
def fracMatcher (l : List Char) : Option (List Char × List Char) :=
  match stripPrefixCh "\\frac".data l with
  | none => none
  | some r1 =>
    match matchBraceArg r1 with
    | none => none
    | some (a, r2) =>
      match matchBraceArg r2 with
      | none => none
      | some (b, r3) =>
        some (( '(' :: a ++ ')' :: '/' :: '(' :: b ++ [')']), r3)

/-- Matcher for `\\sqrt\x7b([^\x7d]+)\x7d → sqrt(\1)`. -/
def sqrtMatcher (l : List Char) : Option (List Char × List Char) :=
  match stripPrefixCh "\\sqrt".data l with
  | none => none
  | some r1 =>
    match matchBraceArg r1 with
    | none => none
    | some (a, r2) => some (("sqrt(".data ++ a ++ [')']), r2)

/-- Matcher for `cmd_\x7bA\x7d^\x7bB\x7d → name(A to B)`, shared shape of the
`\\sum_...` and `\\int_...` rules. -/
def supSubMatcher (cmd name : List Char) (l : List Char) :
    Option (List Char × List Char) :=
  match stripPrefixCh cmd l with
  | none => none
  | some r1 =>
    match matchBraceArg r1 with
    | none => none
    | some (a, r2) =>
      match r2 with
      | c :: r3 =>
        if c = '^' then
          match matchBraceArg r3 with
          | none => none
          | some (b, r4) =>
            some ((name ++ '(' :: a ++ " to ".data ++ b ++ [')']), r4)
        else none
      | [] => none

/-- The six environment wrappers removed first by `_normalize_latex`. -/
def envPatterns : List String :=
  ["\\begin\x7bequation\x7d", "\\end\x7bequation\x7d",
   "\\begin\x7balign\x7d", "\\end\x7balign\x7d",
   "\\begin\x7beqnarray\x7d", "\\end\x7beqnarray\x7d"]

/-- The Greek-letter substitutions of `_normalize_latex`, in source
(dict-insertion) order. -/
def greekPairs : List (String × String) :=
  [("\\alpha", "alpha"), ("\\beta", "beta"), ("\\gamma", "gamma"),
   ("\\delta", "delta"), ("\\epsilon", "epsilon"), ("\\theta", "theta"),
   ("\\lambda", "lambda"), ("\\mu", "mu"), ("\\pi", "pi"),
   ("\\sigma", "sigma"), ("\\tau", "tau"), ("\\phi", "phi"),
   ("\\omega", "omega")]

/-- `MathematicalProcessor._normalize_latex`: strip, remove environment
wrappers, rewrite the fixed macro table (fractions, roots, bounded sums and
integrals), spell out Greek letters, strip again. -/
def normalize_latex (s : String) : String :=
  if s = "" then ""
  else
    let n0 := pyStrip s
    let n1 := envPatterns.foldl (fun acc p => pyReplaceAll acc p "") n0
    let n2 := runRewrite fracMatcher n1
    let n3 := runRewrite sqrtMatcher n2
    let n4 := runRewrite (supSubMatcher "\\sum_".data "sum".data) n3
    let n5 := runRewrite (supSubMatcher "\\int_".data "int".data) n4
    let n6 := greekPairs.foldl (fun acc pr => pyReplaceAll acc pr.1 pr.2) n5
    pyStrip n6

/-! Tokenization: `re.findall` of
`[a-zA-Z_][a-zA-Z0-9_]*|\d+\.?\d*|[+\-*\/=<>()\x7b\x7d[\]^_|\\]`
as a left-to-right scanner; alternatives are tried in order at each position,
a non-matching character is skipped. -/

/-- First character of an identifier: `[a-zA-Z_]`. -/
def isIdStart (c : Char) : Bool := c.isAlpha || c = '_'

/-- Later character of an identifier: `[a-zA-Z0-9_]`. -/
def isIdChar (c : Char) : Bool := c.isAlphanum || c = '_'

/-- The operator class counted by `_calculate_complexity`: `[+\-*\/=<>^]`. -/
def opChars : List Char := ['+', '-', '*', '/', '=', '<', '>', '^']

/-- The bracket class counted by `_calculate_complexity`:
`[()\x7b\x7d[\]|]`. -/
def bracketChars : List Char := ['(', ')', '\x7b', '\x7d', '[', ']', '|']

/-- The single-character token class of `_tokenize_equation`:
`[+\-*\/=<>()\x7b\x7d[\]^_|\\]`. -/
def singleTokChars : List Char :=
  ['+', '-', '*', '/', '=', '<', '>', '(', ')', '\x7b', '\x7d', '[', ']',
   '^', '_', '|', '\\']

/-- Continuation of a numeric literal after its first digit:
`\d*\.?\d*` (greedy).  Returns the consumed tail and the rest. -/
def numTail (cs : List Char) : List Char × List Char :=
  let ds := cs.takeWhile Char.isDigit
  match cs.dropWhile Char.isDigit with
  | c :: r2 =>
    if c = '.' then (ds ++ '.' :: r2.takeWhile Char.isDigit,
                     r2.dropWhile Char.isDigit)
    else (ds, c :: r2)
  | [] => (ds, [])

/-- Scanner for `_tokenize_equation`; fuel only makes recursion structural
(each step consumes at least one character, so `fuel = length` suffices). -/
def tokenizeGo : Nat → List Char → List String
  | _, [] => []
  | 0, _ => []
  | fuel + 1, c :: cs =>
    if isIdStart c then
      (⟨c :: cs.takeWhile isIdChar⟩ : String) ::
        tokenizeGo fuel (cs.dropWhile isIdChar)
    else if c.isDigit then
      let p := numTail cs
      (⟨c :: p.1⟩ : String) :: tokenizeGo fuel p.2
    else if singleTokChars.contains c then
      (⟨[c]⟩ : String) :: tokenizeGo fuel cs
    else
      tokenizeGo fuel cs

/-- `MathematicalProcessor._tokenize_equation`. -/
def tokenize_equation (s : String) : List String :=
  tokenizeGo s.data.length s.data

/-- Python `' '.join` on character lists. -/
def pyJoinGo (sep : List Char) : List (List Char) → List Char
  | [] => []
  | [x] => x
  | x :: y :: rest => x ++ sep ++ pyJoinGo sep (y :: rest)

/-- Python `sep.join(xs)`. -/
def pyJoin (sep : String) (xs : List String) : String :=
  ⟨pyJoinGo sep.data (xs.map String.data)⟩

/-- `MathematicalProcessor._generate_kgrams`: sliding window of size `k`
(`' '.join(tokens[i:i+k])` for `i in range(len(tokens) - k + 1)`); empty for
an empty token list or `k <= 0`. -/
def generate_kgrams (tokens : List String) (k : Nat) : List String :=
  if tokens.isEmpty || k = 0 then []
  else (List.range (tokens.length + 1 - k)).map
    (fun i => pyJoin " " ((tokens.drop i).take k))

/-! Complexity: the four `re.findall(...)` counts of `_calculate_complexity`,
each as a structural left-to-right scanner equivalent to the corresponding
regex (`\\[a-zA-Z]+`, `[+\-*\/=<>^]`, `[()\x7b\x7d[\]|]`,
`[a-zA-Z_][a-zA-Z0-9_]*`, `\d+\.?\d*`). -/

/-- Scanner state for `\\[a-zA-Z]+`. -/
inductive CmdSt | outside | afterBackslash | inCommand

/-- Count matches of `\\[a-zA-Z]+` (a backslash followed by one or more
letters; consecutive letters extend the current match). -/
def countCommandsGo : CmdSt → List Char → Nat
  | _, [] => 0
  | .outside, c :: cs =>
    if c = '\\' then countCommandsGo .afterBackslash cs
    else countCommandsGo .outside cs
  | .afterBackslash, c :: cs =>
    if c.isAlpha then 1 + countCommandsGo .inCommand cs
    else if c = '\\' then countCommandsGo .afterBackslash cs
    else countCommandsGo .outside cs
  | .inCommand, c :: cs =>
    if c.isAlpha then countCommandsGo .inCommand cs
    else if c = '\\' then countCommandsGo .afterBackslash cs
    else countCommandsGo .outside cs

/-- `len(re.findall(r'\\[a-zA-Z]+', s))`. -/
def countCommands (l : List Char) : Nat := countCommandsGo .outside l

/-- `len(re.findall(r'[+\-*\/=<>^]', s))`. -/
def countOps (l : List Char) : Nat := l.countP (fun c => opChars.contains c)

/-- `len(re.findall(r'[()\x7b\x7d[\]|]', s))`. -/
def countBrackets (l : List Char) : Nat :=
  l.countP (fun c => bracketChars.contains c)

/-- Count matches of `[a-zA-Z_][a-zA-Z0-9_]*`; the boolean state says whether
the scanner is inside a match (whose greedy tail absorbs id-characters). -/
def countIdentsGo : Bool → List Char → Nat
  | _, [] => 0
  | inside, c :: cs =>
    if inside && isIdChar c then countIdentsGo true cs
    else if isIdStart c then 1 + countIdentsGo true cs
    else countIdentsGo false cs

/-- `len(re.findall(r'[a-zA-Z_][a-zA-Z0-9_]*', s))`. -/
def countIdents (l : List Char) : Nat := countIdentsGo false l

/-- Scanner state for `\d+\.?\d*`: outside / in the integer part / after the
optional dot. -/
inductive NumSt | outside | intPart | fracPart

/-- Count matches of `\d+\.?\d*`. -/
def countNumbersGo : NumSt → List Char → Nat
  | _, [] => 0
  | .outside, c :: cs =>
    if c.isDigit then 1 + countNumbersGo .intPart cs
    else countNumbersGo .outside cs
  | .intPart, c :: cs =>
    if c.isDigit then countNumbersGo .intPart cs
    else if c = '.' then countNumbersGo .fracPart cs
    else countNumbersGo .outside cs
  | .fracPart, c :: cs =>
    if c.isDigit then countNumbersGo .fracPart cs
    else countNumbersGo .outside cs

/-- `len(re.findall(r'\d+\.?\d*', s))`. -/
def countNumbers (l : List Char) : Nat := countNumbersGo .outside l

/-- `MathematicalProcessor._calculate_complexity`: weighted count sum capped
at `10.0`. -/
def calculate_complexity (s : String) : ℚ :=
  if s = "" then 0
  else
    min ((countCommands s.data : ℚ) * 0.5 + (countOps s.data : ℚ) * 0.3 +
         (countBrackets s.data : ℚ) * 0.2 +
         ((countIdents s.data : ℚ) + (countNumbers s.data : ℚ)) * 0.1) 10

/-- `MathematicalProcessor._classify_equation_type`: first matching rule. -/
def classify_equation_type (s : String) : String :=
  if s = "" then "unknown"
  else
    let lower := pyLower s
    if pyContains s "\\frac" || pyContains s "/" then "fraction"
    else if pyContains s "\\sum" || pyContains lower "sum" then "summation"
    else if pyContains s "\\int" || pyContains lower "int" then "integral"
    else if pyContains s "\\sqrt" || pyContains lower "sqrt" then "radical"
    else if pyContains s "=" then "equation"
    else if pyContains s "\\in" || pyContains lower "in" then "set_membership"
    else if pyContains s "\\subset" || pyContains lower "subset" then
      "set_relation"
    else "expression"

/-- The result dictionary of `MathematicalProcessor.process_equation` (also
the `MathematicalContent` payload built from it); absent dictionary keys
(`math_canonical`, `error`) are `none`. -/
structure MathResult where
  equation_tex : String
  math_norm : String
  math_tokens : List String
  math_kgrams : List String
  complexity_score : ℚ
  equation_type : String
  math_canonical : Option String := none
  error : Option String := none
deriving DecidableEq, Repr

/-- `MathematicalProcessor._create_empty_result`. -/
def create_empty_result : MathResult :=
  { equation_tex := "", math_norm := "", math_tokens := [], math_kgrams := [],
    complexity_score := 0, equation_type := "unknown" }

/-- `MathematicalProcessor._create_fallback_result`: raw markup as normalized
form, single-token and single-k-gram lists, exception text in `error`. -/
def create_fallback_result (tex err : String) : MathResult :=
  { equation_tex := tex, math_norm := tex, math_tokens := [tex],
    math_kgrams := [tex], complexity_score := 0, equation_type := "unknown",
    error := some err }

/-- The `try`-block body of `process_equation`; `canon` models the optional
SymPy canonicalizer `_canonicalize_equation` (returns `none` when SymPy is
unavailable, disabled, or fails — the source then omits the key; the
`if canonical:` truthiness test also drops an empty string). -/
def process_equation_body (canon : String → Option String) (tex : String) :
    MathResult :=
  let norm := normalize_latex tex
  let tokens := tokenize_equation norm
  { equation_tex := tex, math_norm := norm, math_tokens := tokens,
    math_kgrams := generate_kgrams tokens 3,
    complexity_score := calculate_complexity tex,
    equation_type := classify_equation_type tex,
    math_canonical :=
      match canon tex with
      | some c => if c = "" then none else some c
      | none => none }

/-- The control skeleton of `process_equation`: empty-input short circuit,
then the `try`-block `inner`, whose exception (`Except.error`) is caught and
turned into the fallback result — generic in `inner` so that the
catch-anything semantics of the source can be stated for every possible
internal failure. -/
def process_equation_with (inner : String → Except String MathResult)
    (tex : String) : MathResult :=
  if tex = "" then create_empty_result
  else
    match inner tex with
    | .ok r => r
    | .error e => create_fallback_result tex e

/-- `MathematicalProcessor.process_equation` with the actual (total) body. -/
def process_equation (canon : String → Option String) (tex : String) :
    MathResult :=
  process_equation_with (fun t => .ok (process_equation_body canon t)) tex

/-!  Glossary extraction (`glossary_extractor.py`).  The sentence-level
helpers `_is_definition_sentence`, `_extract_term`, `_extract_definition`,
`_extract_context` and `_extract_related_terms` are abstracted as parameters:
the claims about `extract_glossary_terms` hold for every behaviour of these
helpers, so the theorems below quantify over them. -/

/-- `GlossaryContent` payload.  Modelled from the spec: the dataclass lives in
`enhanced_chunk.py`, which is not under `src/`; fields per spec §3
(term, definition, optional context, related terms, confidence), optional
fields defaulting to absent.  The extractor constructs it with exactly
`term`, `definition`, `context` and `related_terms`. -/
structure GlossaryContent where
  term : String
  definition : String
  context : Option String := none
  related_terms : List String := []
  confidence : ℚ := 0
deriving DecidableEq, Repr

/-- Python truthiness of an `Optional[str]`: `None` and `""` are falsy. -/
def pyTruthy : Option String → Bool
  | none => false
  | some s => !(s = "")

/-- A terminal-punctuation character of `_split_into_sentences`
(`re.split(r'[.!?]+', text)`). -/
def isTerminator (c : Char) : Bool := c = '.' || c = '!' || c = '?'

/-- `re.split(r'[.!?]+', text)` on character lists: split at maximal runs of
terminators (fuel is structural bookkeeping; `length + 1` always suffices). -/
def splitTermGo : Nat → List Char → List (List Char)
  | 0, l => [l]
  | fuel + 1, l =>
    let seg := l.takeWhile (fun c => !isTerminator c)
    match l.dropWhile (fun c => !isTerminator c) with
    | [] => [seg]
    | _ :: _ =>
      seg :: splitTermGo fuel
        ((l.dropWhile (fun c => !isTerminator c)).dropWhile isTerminator)

/-- `GlossaryExtractor._split_into_sentences`: split on `[.!?]+`, strip each
piece, keep the nonempty ones. -/
def split_into_sentences (text : String) : List String :=
  (((splitTermGo (text.data.length + 1) text.data).map
    (fun l => pyStrip ⟨l⟩)).filter (fun s => !(s = "")))

/-- The sentence-level helpers of `GlossaryExtractor`, as an abstract
bundle (see the section comment above). -/
structure GlossaryHelpers where
  isDefinitionSentence : String → Bool
  extractTerm : String → Option String
  extractDefinition : String → Option String
  extractContext : String → Option String
  extractRelatedTerms : String → List String

/-- `GlossaryExtractor.extract_glossary_terms`: split into sentences; for each
definition sentence extract term/definition/context/related terms and emit a
`GlossaryContent` only under the `if term and definition:` guard (both
non-`None` and nonempty).  `source_id` is accepted but, as in the source, not
stored in the payload. -/
def extract_glossary_terms (H : GlossaryHelpers) (text source_id : String) :
    List GlossaryContent :=
  if text = "" then []
  else
    (split_into_sentences text).filterMap (fun s =>
      if H.isDefinitionSentence s then
        match H.extractTerm s, H.extractDefinition s with
        | some t, some d =>
          if !(t = "") && !(d = "") then
            some { term := t, definition := d, context := H.extractContext s,
                   related_terms := H.extractRelatedTerms s }
          else none
        | some _, none => none
        | none, _ => none
      else none)

/-!  Asset processing (`asset_processor.py`).  The block-level helpers
(`_contains_figure`, `_contains_table`, `_extract_caption`,
`_extract_file_path`, `_extract_alt_text`, `_extract_label`,
`_extract_table_data`) are abstracted as parameters; the claims about
`process_asset` hold for every behaviour of these helpers. -/

/-- `AssetContent` payload.  Modelled from the spec: the dataclass lives in
`enhanced_chunk.py`, which is not under `src/`; fields per spec §3, optional
fields defaulting to absent (`_process_figure` constructs it without a
`table_data` argument). -/
structure AssetContent where
  asset_type : String
  caption : Option String := none
  file_path : Option String := none
  alt_text : Option String := none
  label : Option String := none
  source_id : String := ""
  table_data : Option (List (List String)) := none
deriving DecidableEq, Repr

/-- The block-level helpers of `AssetProcessor`, as an abstract bundle. -/
structure AssetHelpers where
  containsFigure : String → Bool
  containsTable : String → Bool
  extractCaption : String → Option String
  extractFilePath : String → Option String
  extractAltText : String → Option String
  extractLabel : String → Option String
  extractTableData : String → Option (List (List String))

/-- `AssetProcessor._process_figure`: a figure payload with caption, file
path, alt text, label; no `table_data` argument (defaults to absent). -/
def process_figure (H : AssetHelpers) (text source_id : String) :
    Option AssetContent :=
  if H.containsFigure text then
    some { asset_type := "figure", caption := H.extractCaption text,
           file_path := H.extractFilePath text,
           alt_text := H.extractAltText text, label := H.extractLabel text,
           source_id := source_id }
  else none

/-- `AssetProcessor._process_table`: a table payload with explicit
`file_path=None`, `alt_text=None` and extracted `table_data`. -/
def process_table (H : AssetHelpers) (text source_id : String) :
    Option AssetContent :=
  if H.containsTable text then
    some { asset_type := "table", caption := H.extractCaption text,
           file_path := none, alt_text := none,
           label := H.extractLabel text, source_id := source_id,
           table_data := H.extractTableData text }
  else none

/-- `AssetProcessor.process_asset`: empty text yields nothing; otherwise try
figures first, then tables (a constructed payload is always truthy in the
source, so the first `some` wins). -/
def process_asset (H : AssetHelpers) (text source_id : String) :
    Option AssetContent :=
  if text = "" then none
  else
    match process_figure H text source_id with
    | some a => some a
    | none =>
      match process_table H text source_id with
      | some a => some a
      | none => none

/-!  Monitoring (`monitoring.py`).  Timestamps, logging and the advisory
psutil sampling calls are not modelled; the bounded `deque(maxlen=...)`
histories are modelled as unbounded lists (no claim touches the bound). -/

/-- The `self.thresholds` dictionary of `EnhancedProcessingMonitor`
(fixed key set). -/
structure Thresholds where
  max_response_time : ℚ
  max_error_rate : ℚ
  max_memory_usage : ℚ
  max_cpu_usage : ℚ
deriving DecidableEq, Repr

/-- The constructor defaults: 5.0 s, 10 %, 80 %, 80 %. -/
def defaultThresholds : Thresholds :=
  { max_response_time := 5, max_error_rate := 0.1, max_memory_usage := 80,
    max_cpu_usage := 80 }

/-- `EnhancedProcessingMonitor` state (counters, histories, thresholds). -/
structure Monitor where
  success_count : Nat
  error_count : Nat
  response_times : List ℚ
  error_history : List (String × String)
  memory_usage : List ℚ
  cpu_usage : List ℚ
  thresholds : Thresholds
deriving DecidableEq, Repr

/-- A freshly constructed monitor. -/
def initMonitor : Monitor :=
  { success_count := 0, error_count := 0, response_times := [],
    error_history := [], memory_usage := [], cpu_usage := [],
    thresholds := defaultThresholds }

/-- `EnhancedProcessingMonitor.record_success` (the operation name is only
logged). -/
def record_success (m : Monitor) (op : String) (response_time : ℚ) : Monitor :=
  let _ := op
  { m with success_count := m.success_count + 1,
           response_times := m.response_times ++ [response_time] }

/-- `EnhancedProcessingMonitor.record_error`. -/
def record_error (m : Monitor) (op msg : String) : Monitor :=
  { m with error_count := m.error_count + 1,
           error_history := m.error_history ++ [(op, msg)] }

/-- The `error_rate` entry of `get_metrics`. -/
def errorRate (m : Monitor) : ℚ :=
  if m.success_count + m.error_count = 0 then 0
  else (m.error_count : ℚ) / ((m.success_count + m.error_count : Nat) : ℚ)

/-- The `avg_response_time` entry of `get_metrics`. -/
def avgResponseTime (m : Monitor) : ℚ :=
  if m.response_times = [] then 0
  else m.response_times.sum / (m.response_times.length : ℚ)

/-- The `health_issues` list built by `check_health` (message texts
abbreviated; only presence matters downstream).  Memory/CPU are judged on the
most recent sample (`[-1]`) and only when a sample exists. -/
def healthIssues (m : Monitor) : List String :=
  (if avgResponseTime m > m.thresholds.max_response_time then
     ["high average response time"] else []) ++
  (if errorRate m > m.thresholds.max_error_rate then
     ["high error rate"] else []) ++
  (match m.memory_usage.getLast? with
   | some v => if v > m.thresholds.max_memory_usage then
       ["high memory usage"] else []
   | none => []) ++
  (match m.cpu_usage.getLast? with
   | some v => if v > m.thresholds.max_cpu_usage then
       ["high CPU usage"] else []
   | none => [])

/-- The `status` field of `check_health`: `unhealthy` on any issue, else
`degraded` above the literal `0.05` error rate, else `healthy`. -/
def checkHealthStatus (m : Monitor) : String :=
  if healthIssues m ≠ [] then "unhealthy"
  else if errorRate m > 0.05 then "degraded"
  else "healthy"

/-- `EnhancedProcessingMonitor.set_threshold`: update the named entry of the
thresholds dictionary; an unknown metric name only logs a warning. -/
def set_threshold (m : Monitor) (metric : String) (v : ℚ) : Monitor :=
  if metric = "max_response_time" then
    { m with thresholds := { m.thresholds with max_response_time := v } }
  else if metric = "max_error_rate" then
    { m with thresholds := { m.thresholds with max_error_rate := v } }
  else if metric = "max_memory_usage" then
    { m with thresholds := { m.thresholds with max_memory_usage := v } }
  else if metric = "max_cpu_usage" then
    { m with thresholds := { m.thresholds with max_cpu_usage := v } }
  else m

/-!  Chunks and the document processor (`document_processor.py`,
`scirag_enhanced.py`). -/

/-- Chunk content type.  Modelled from the spec: the enumeration lives in
`enhanced_chunk.py`, which is not under `src/`; variants per spec §3. -/
inductive ContentType
  | prose | equation | figure | table | definition | code | reference
  | mixed | other
deriving DecidableEq, Repr

/-- `EnhancedChunk`.  Modelled from the spec: the dataclass lives in
`enhanced_chunk.py`, which is not under `src/`; fields per spec §3 with the
three independently optional specialized payloads, and `is_mathematical` /
`is_asset` / `is_glossary` holding exactly when the corresponding payload is
present. -/
structure EnhancedChunk where
  id : String
  text : String
  source_id : String
  chunk_index : Nat
  content_type : ContentType
  confidence : ℚ := 0
  mathematical_content : Option MathResult := none
  asset_content : Option AssetContent := none
  glossary_content : Option GlossaryContent := none
deriving DecidableEq, Repr

/-- Modelled from the spec: `EnhancedChunk.is_mathematical`. -/
def EnhancedChunk.is_mathematical (c : EnhancedChunk) : Bool :=
  c.mathematical_content.isSome

/-- Modelled from the spec: `EnhancedChunk.is_asset`. -/
def EnhancedChunk.is_asset (c : EnhancedChunk) : Bool :=
  c.asset_content.isSome

/-- Modelled from the spec: `EnhancedChunk.is_glossary`. -/
def EnhancedChunk.is_glossary (c : EnhancedChunk) : Bool :=
  c.glossary_content.isSome

/-- `EnhancedDocumentProcessor._read_document`: any exception while opening
or reading the file is caught and turned into the empty string. -/
def read_document (readResult : Except String String) : String :=
  match readResult with
  | .ok content => content
  | .error _ => ""

/-- `EnhancedDocumentProcessor.process_document`.  The filesystem read is
modelled by `readResult`; the chunker (in `enhanced_chunker.py`, not under
`src/`) and per-chunk enrichment `_enhance_chunk` (which returns a chunk on
both its success and its fallback path, and chunk objects are always truthy)
are abstract parameters.  Empty content returns early with no monitor
interaction; otherwise the chunks are enriched and one success is recorded
(`record_success("document_processing", 0.1)`). -/
def process_document (chunker : String → String → List EnhancedChunk)
    (enrich : EnhancedChunk → EnhancedChunk)
    (readResult : Except String String) (source_id : String) (m : Monitor) :
    List EnhancedChunk × Monitor :=
  let content := read_document readResult
  if content = "" then ([], m)
  else
    ((chunker content source_id).map enrich,
     record_success m "document_processing" 0.1)

/-- `EnhancedDocumentProcessor.process_multiple_documents`: fold
`process_document` over the zipped (read result, source id) list, threading
the monitor and concatenating the chunk lists. -/
def process_multiple_documents
    (chunker : String → String → List EnhancedChunk)
    (enrich : EnhancedChunk → EnhancedChunk) :
    List (Except String String × String) → Monitor →
    List EnhancedChunk × Monitor
  | [], m => ([], m)
  | d :: rest, m =>
    let p := process_document chunker enrich d.1 d.2 m
    let q := process_multiple_documents chunker enrich rest p.2
    (p.1 ++ q.1, q.2)

/-- `EnhancedProcessingStats` (`scirag_enhanced.py`). -/
structure EnhancedProcessingStats where
  documents_processed : Nat := 0
  chunks_created : Nat := 0
  mathematical_content_processed : Nat := 0
  assets_processed : Nat := 0
  glossary_terms_extracted : Nat := 0
  processing_time : ℚ := 0
  errors : Nat := 0
deriving DecidableEq, Repr

/-- The loop body of `SciRagEnhanced._update_content_stats`: bump each
content counter whose payload is present on the chunk. -/
def contentStep (acc : EnhancedProcessingStats) (c : EnhancedChunk) :
    EnhancedProcessingStats :=
  let a1 := if c.is_mathematical then
    { acc with mathematical_content_processed :=
        acc.mathematical_content_processed + 1 } else acc
  let a2 := if c.is_asset then
    { a1 with assets_processed := a1.assets_processed + 1 } else a1
  if c.is_glossary then
    { a2 with glossary_terms_extracted := a2.glossary_terms_extracted + 1 }
  else a2

/-- `SciRagEnhanced._update_content_stats`: per chunk, bump each content
counter whose payload is present. -/
def update_content_stats (st : EnhancedProcessingStats)
    (chunks : List EnhancedChunk) : EnhancedProcessingStats :=
  chunks.foldl contentStep st

/-- The per-document loop of `SciRagEnhanced.load_documents_enhanced`: a
successful `process_document` call extends the chunk list and bumps
`documents_processed`; a raised exception bumps `errors` (the basic-processing
fallback `_load_document_basic` returns `[]`, so it extends nothing whether or
not `fallback_on_error` is set). -/
def loadLoop (st : EnhancedProcessingStats) (acc : List EnhancedChunk) :
    List (Except String (List EnhancedChunk)) →
    EnhancedProcessingStats × List EnhancedChunk
  | [] => (st, acc)
  | r :: rest =>
    match r with
    | .ok chunks =>
      loadLoop
        { st with documents_processed := st.documents_processed + 1 }
        (acc ++ chunks) rest
    | .error _ =>
      loadLoop { st with errors := st.errors + 1 } acc rest

/-- `SciRagEnhanced.load_documents_enhanced`, from a given starting
statistics record; each per-document `process_document` call outcome is an
entry of `results`.  After the loop, `chunks_created` is assigned the length
of the accumulated list and `_update_content_stats` bumps the content
counters (the wall-clock `processing_time` assignment is not modelled). -/
def load_documents_enhanced (init : EnhancedProcessingStats)
    (results : List (Except String (List EnhancedChunk))) :
    EnhancedProcessingStats × List EnhancedChunk :=
  let p := loadLoop init [] results
  (update_content_stats { p.1 with chunks_created := p.2.length } p.2, p.2)

/-- The chunks contributed by the successful documents, in order. -/
def collectOk : List (Except String (List EnhancedChunk)) →
    List EnhancedChunk
  | [] => []
  | .ok chunks :: rest => chunks ++ collectOk rest
  | .error _ :: rest => collectOk rest

/-- Whether a per-document outcome is a success. -/
def isOkResult : Except String (List EnhancedChunk) → Bool
  | .ok _ => true
  | .error _ => false

/-!  Auxiliary predicates and fixtures used by the statements below. -/

/-- A well-formed structural command token: a backslash followed by one or
more letters (spec §4.2's "structural command"). -/
def isStructuralCommand (t : String) : Bool :=
  match t.data with
  | c :: rest => c = '\\' && !rest.isEmpty && rest.all Char.isAlpha
  | [] => false

/-- A well-formed operator token: a single character of the operator class. -/
def isOperatorToken (t : String) : Bool :=
  match t.data with
  | [c] => opChars.contains c
  | _ => false

/-- A well-formed variable token: an identifier
(`[a-zA-Z_][a-zA-Z0-9_]*`). -/
def isVariableToken (t : String) : Bool :=
  match t.data with
  | c :: rest => isIdStart c && rest.all isIdChar
  | [] => false

/-- A well-formed appended token in the sense of the complexity-monotonicity
claim: a structural command, an operator, or a variable. -/
def WellFormedToken (t : String) : Prop :=
  isStructuralCommand t = true ∨ isOperatorToken t = true ∨
    isVariableToken t = true

/-- Some configured threshold of `check_health` is exceeded (the four
conditions contributing to `health_issues`; memory and CPU are judged on the
most recent sample). -/
def someThresholdExceeded (m : Monitor) : Prop :=
  avgResponseTime m > m.thresholds.max_response_time ∨
  errorRate m > m.thresholds.max_error_rate ∨
  (∃ v, m.memory_usage.getLast? = some v ∧
    v > m.thresholds.max_memory_usage) ∨
  (∃ v, m.cpu_usage.getLast? = some v ∧ v > m.thresholds.max_cpu_usage)

/-- A monitor that has seen 47 successes and 3 errors (error rate 6 %) and
nothing else, with the default thresholds. -/
def monC6 : Monitor :=
  { success_count := 47, error_count := 3, response_times := [],
    error_history := [], memory_usage := [], cpu_usage := [],
    thresholds := defaultThresholds }

/-- `monC6` after raising every runtime-configurable threshold to 1000 via
`set_threshold` — the whole configuration surface of the monitor. -/
def monC6raised : Monitor :=
  set_threshold (set_threshold (set_threshold (set_threshold monC6
    "max_response_time" 1000) "max_error_rate" 1000)
    "max_memory_usage" 1000) "max_cpu_usage" 1000

/-- Concrete glossary helpers for the C4 witness. -/
def glossaryHelpersW : GlossaryHelpers :=
  { isDefinitionSentence := fun _ => true,
    extractTerm := fun _ => some "entropy",
    extractDefinition := fun _ => some "a measure of disorder",
    extractContext := fun _ => none,
    extractRelatedTerms := fun _ => [] }

/-- Concrete asset helpers for the C5 witness. -/
def assetHelpersW : AssetHelpers :=
  { containsFigure := fun _ => true, containsTable := fun _ => false,
    extractCaption := fun _ => none, extractFilePath := fun _ => none,
    extractAltText := fun _ => none, extractLabel := fun _ => none,
    extractTableData := fun _ => none }

/-- The asset produced by `process_asset assetHelpersW "fig" "doc"`. -/
def assetW : AssetContent := { asset_type := "figure", source_id := "doc" }

/-!  ## Theorems -/

/-- C1: whenever the try-block of `process_equation` raises (its body returns
`Except.error e`) on a non-empty markup string, the result is the fallback
`MathematicalContent`: `math_tokens` and `math_kgrams` are the single-element
list holding the raw markup, `math_norm` is the raw markup, and `error` holds
the exception text; the exception is never propagated (the function is total
by construction). -/
theorem c1_process_equation_fallback
    (inner : String → Except String MathResult) (tex e : String)
    (h1 : tex ≠ "") (h2 : inner tex = .error e) :
    process_equation_with inner tex = create_fallback_result tex e ∧
    (process_equation_with inner tex).math_tokens = [tex] ∧
    (process_equation_with inner tex).math_kgrams = [tex] ∧
    (process_equation_with inner tex).math_norm = tex ∧
    (process_equation_with inner tex).error = some e := by
  have h : process_equation_with inner tex = create_fallback_result tex e := by
    unfold process_equation_with
    rw [if_neg h1, h2]
  exact ⟨h, by rw [h]; rfl, by rw [h]; rfl, by rw [h]; rfl, by rw [h]; rfl⟩

/-- Witness for C1 at a concrete unterminated-marker input and a concrete
internal exception. -/
theorem c1_witness :
    ("$E=mc" : String) ≠ "" ∧
    process_equation_with
      (fun _ => Except.error "unterminated marker") "$E=mc" =
      create_fallback_result "$E=mc" "unterminated marker" :=
  ⟨by decide,
   (c1_process_equation_fallback (fun _ => Except.error "unterminated marker")
     "$E=mc" "unterminated marker" (by decide) rfl).1⟩

/-- C10: the empty input string takes the dedicated empty-result path of
`process_equation`: empty `equation_tex` and `math_norm`, empty token and
k-gram lists, complexity 0, equation type "unknown", and no `error` field
(the exception fallback is not involved). -/
theorem c10_empty_input (canon : String → Option String) :
    process_equation canon "" = create_empty_result ∧
    (process_equation canon "").equation_tex = "" ∧
    (process_equation canon "").math_norm = "" ∧
    (process_equation canon "").math_tokens = [] ∧
    (process_equation canon "").math_kgrams = [] ∧
    (process_equation canon "").complexity_score = 0 ∧
    (process_equation canon "").equation_type = "unknown" ∧
    (process_equation canon "").error = none :=
  ⟨rfl, rfl, rfl, rfl, rfl, rfl, rfl, rfl⟩

/-- C2 counterexample: a failing document read (here a concrete missing-file
error on a fresh monitor) makes `process_document` return the empty chunk
list with the monitor completely unchanged — in particular no error is
recorded with the Monitor (`error_count` stays 0), contradicting the claim
that a read failure records a Monitor error.  (`_read_document` swallows the
exception and returns an empty string, whose early-return path touches no
monitor state.) -/
theorem c2_read_failure_counterexample :
    process_document (fun _ _ => []) (fun c => c)
      (Except.error "No such file or directory") "doc1" initMonitor
      = ([], initMonitor) ∧
    initMonitor.error_count = 0 ∧ initMonitor.success_count = 0 :=
  ⟨rfl, rfl, rfl⟩

/-- C2 amended: for every document whose read fails, `process_document`
returns the empty chunk list and never raises, but leaves the Monitor
untouched (no error is recorded — the read helper swallows the exception);
and `process_multiple_documents` continues with the remaining documents, so
a failing document can be deleted from a batch without changing anything. -/
theorem c2_read_failure_amended
    (chunker : String → String → List EnhancedChunk)
    (enrich : EnhancedChunk → EnhancedChunk) (e source_id : String)
    (m : Monitor) (ds1 ds2 : List (Except String String × String)) :
    process_document chunker enrich (Except.error e) source_id m = ([], m) ∧
    process_multiple_documents chunker enrich
      (ds1 ++ (Except.error e, source_id) :: ds2) m =
      process_multiple_documents chunker enrich (ds1 ++ ds2) m := by
  have hdoc : ∀ m' : Monitor,
      process_document chunker enrich (Except.error e) source_id m'
        = ([], m') := fun _ => rfl
  refine ⟨hdoc m, ?_⟩
  induction ds1 generalizing m with
  | nil => rfl
  | cons d ds1 ih =>
    have step : ∀ (ds : List (Except String String × String)) (m' : Monitor),
        process_multiple_documents chunker enrich (d :: ds) m' =
          ((process_document chunker enrich d.1 d.2 m').1 ++
            (process_multiple_documents chunker enrich ds
              (process_document chunker enrich d.1 d.2 m').2).1,
           (process_multiple_documents chunker enrich ds
              (process_document chunker enrich d.1 d.2 m').2).2) :=
      fun _ _ => rfl
    rw [List.cons_append, List.cons_append, step, step,
      ih (process_document chunker enrich d.1 d.2 m).2]

/-- C5: every `AssetContent` returned by `process_asset` matches its asset
type: a "table" payload has no file path and no alt text, and a "figure"
payload has no table data — for every behaviour of the block-level
extraction helpers. -/
theorem c5_asset_payload (H : AssetHelpers) (text source_id : String)
    (a : AssetContent) (h : process_asset H text source_id = some a) :
    (a.asset_type = "table" → a.file_path = none ∧ a.alt_text = none) ∧
    (a.asset_type = "figure" → a.table_data = none) := by
  unfold process_asset process_figure process_table at h
  by_cases ht : text = ""
  · rw [if_pos ht] at h
    exact absurd h (by simp)
  · rw [if_neg ht] at h
    by_cases hf : H.containsFigure text
    · simp only [if_pos hf] at h
      obtain rfl := Option.some.inj h
      refine ⟨fun hta => ?_, fun _ => rfl⟩
      simp at hta
    · simp only [if_neg hf] at h
      by_cases htab : H.containsTable text
      · simp only [if_pos htab] at h
        obtain rfl := Option.some.inj h
        refine ⟨fun _ => ⟨rfl, rfl⟩, fun hta => ?_⟩
        simp at hta
      · simp only [if_neg htab] at h
        exact absurd h (by simp)

/-- Witness for C5 at a concrete figure-detecting helper bundle. -/
theorem c5_witness :
    (assetW.asset_type = "table" →
      assetW.file_path = none ∧ assetW.alt_text = none) ∧
    (assetW.asset_type = "figure" → assetW.table_data = none) :=
  c5_asset_payload assetHelpersW "fig" "doc" assetW rfl

/-- C4: every `GlossaryContent` emitted by `extract_glossary_terms` has a
non-empty term and a non-empty definition (the `if term and definition:`
guard), for every input text, source id and every behaviour of the
sentence-level helpers. -/
theorem c4_glossary_nonempty (H : GlossaryHelpers) (text source_id : String)
    (g : GlossaryContent) (hg : g ∈ extract_glossary_terms H text source_id) :
    g.term ≠ "" ∧ g.definition ≠ "" := by
  unfold extract_glossary_terms at hg
  by_cases ht : text = ""
  · rw [if_pos ht] at hg
    simp at hg
  · rw [if_neg ht] at hg
    obtain ⟨s, _, hsome⟩ := List.mem_filterMap.mp hg
    by_cases hd : H.isDefinitionSentence s
    · rw [if_pos hd] at hsome
      rcases hT : H.extractTerm s with _ | t <;> rw [hT] at hsome
      · simp at hsome
      · rcases hD : H.extractDefinition s with _ | d <;> rw [hD] at hsome
        · simp at hsome
        · have hsome' : (if (!(t = "") && !(d = "")) = true then
              some ({ term := t, definition := d,
                      context := H.extractContext s,
                      related_terms := H.extractRelatedTerms s } :
                    GlossaryContent)
              else none) = some g := hsome
          by_cases hne : (!(t = "") && !(d = "")) = true
          · rw [if_pos hne] at hsome'
            obtain rfl := Option.some.inj hsome'
            simp only [Bool.and_eq_true, Bool.not_eq_true',
              decide_eq_false_iff_not] at hne
            exact hne
          · rw [if_neg hne] at hsome'
            simp at hsome'
    · rw [if_neg hd] at hsome
      simp at hsome

/-- Witness for C4 at a concrete helper bundle and sentence. -/
theorem c4_witness :
    ({ term := "entropy", definition := "a measure of disorder" } :
      GlossaryContent).term ≠ "" ∧
    ({ term := "entropy", definition := "a measure of disorder" } :
      GlossaryContent).definition ≠ "" :=
  c4_glossary_nonempty glossaryHelpersW "Entropy means disorder." "src"
    { term := "entropy", definition := "a measure of disorder" } (by decide)

/-- C6 counterexample: a monitor with a 6 % error rate and no other issue is
"degraded"; after raising every runtime-configurable threshold to 1000
through `set_threshold` (the monitor's whole configuration surface) it is
still "degraded", although its 6 % error rate is far below every configured
value — so the secondary warning threshold deciding "degraded" is the
hardcoded constant 0.05, not one of the runtime-configurable thresholds, and
the claim's configurability statement fails. -/
theorem c6_health_counterexample :
    checkHealthStatus monC6 = "degraded" ∧
    checkHealthStatus monC6raised = "degraded" ∧
    errorRate monC6raised = 3 / 50 ∧
    monC6raised.thresholds =
      { max_response_time := 1000, max_error_rate := 1000,
        max_memory_usage := 1000, max_cpu_usage := 1000 } ∧
    (3 / 50 : ℚ) < 1000 := by
  have h : monC6raised =
      { success_count := 47, error_count := 3, response_times := [],
        error_history := [], memory_usage := [], cpu_usage := [],
        thresholds := { max_response_time := 1000, max_error_rate := 1000,
                        max_memory_usage := 1000,
                        max_cpu_usage := 1000 } } := rfl
  refine ⟨?_, ?_, ?_, by rw [h], by norm_num⟩
  · norm_num [checkHealthStatus, healthIssues, errorRate, avgResponseTime,
      monC6, defaultThresholds]
  · rw [h]
    norm_num [checkHealthStatus, healthIssues, errorRate, avgResponseTime]
  · rw [h]
    norm_num [errorRate]

/-- C6 amended: `check_health` is "unhealthy" exactly when one of the four
configured thresholds is exceeded (average response time, error rate, most
recent memory sample, most recent CPU sample); otherwise "degraded" exactly
when the error rate exceeds the fixed constant 0.05; otherwise "healthy".
The four unhealthy-thresholds are runtime-configurable via `set_threshold`,
but the 0.05 warning threshold is hardcoded (it is not part of the threshold
dictionary that `set_threshold` can update). -/
theorem c6_health_amended (m : Monitor) (v : ℚ) :
    (healthIssues m ≠ [] ↔ someThresholdExceeded m) ∧
    (checkHealthStatus m = "unhealthy" ↔ someThresholdExceeded m) ∧
    (checkHealthStatus m = "degraded" ↔
      (¬ someThresholdExceeded m ∧ errorRate m > 0.05)) ∧
    (checkHealthStatus m = "healthy" ↔
      (¬ someThresholdExceeded m ∧ errorRate m ≤ 0.05)) ∧
    (set_threshold m "max_response_time" v).thresholds.max_response_time = v ∧
    (set_threshold m "max_error_rate" v).thresholds.max_error_rate = v ∧
    (set_threshold m "max_memory_usage" v).thresholds.max_memory_usage = v ∧
    (set_threshold m "max_cpu_usage" v).thresholds.max_cpu_usage = v := by
  have hiss0 : healthIssues m = [] ↔ ¬ someThresholdExceeded m := by
    unfold healthIssues someThresholdExceeded
    rcases hmem : m.memory_usage.getLast? with _ | mv <;>
      rcases hcpu : m.cpu_usage.getLast? with _ | cv <;>
        simp [List.append_eq_nil, ite_eq_right_iff, not_or, not_lt]
  have hiss : healthIssues m ≠ [] ↔ someThresholdExceeded m := by
    rw [Ne, hiss0, not_not]
  have hstat : checkHealthStatus m =
      (if healthIssues m ≠ [] then "unhealthy"
       else if errorRate m > 0.05 then "degraded" else "healthy") := rfl
  refine ⟨hiss, ?_, ?_, ?_, rfl, rfl, rfl, rfl⟩ <;> rw [hstat]
  · by_cases hex : someThresholdExceeded m
    · rw [if_pos (hiss.mpr hex)]
      exact ⟨fun _ => hex, fun _ => rfl⟩
    · rw [if_neg (fun hne => hex (hiss.mp hne))]
      constructor
      · intro h
        split_ifs at h <;> exact absurd h (by decide)
      · exact fun h => absurd h hex
  · by_cases hex : someThresholdExceeded m
    · rw [if_pos (hiss.mpr hex)]
      exact ⟨fun h => absurd h (by decide), fun h => absurd hex h.1⟩
    · rw [if_neg (fun hne => hex (hiss.mp hne))]
      by_cases hr : errorRate m > 0.05
      · rw [if_pos hr]
        exact ⟨fun _ => ⟨hex, hr⟩, fun _ => rfl⟩
      · rw [if_neg hr]
        exact ⟨fun h => absurd h (by decide), fun h => absurd h.2 hr⟩
  · by_cases hex : someThresholdExceeded m
    · rw [if_pos (hiss.mpr hex)]
      exact ⟨fun h => absurd h (by decide), fun h => absurd hex h.1⟩
    · rw [if_neg (fun hne => hex (hiss.mp hne))]
      by_cases hr : errorRate m > 0.05
      · rw [if_pos hr]
        exact ⟨fun h => absurd h (by decide),
               fun h => absurd hr (not_lt.mpr h.2)⟩
      · rw [if_neg hr]
        exact ⟨fun _ => ⟨hex, not_lt.mp hr⟩, fun _ => rfl⟩

/-- One `contentStep` bumps exactly the counters whose payload is present
and leaves every other field unchanged. -/
theorem contentStep_fields (st : EnhancedProcessingStats)
    (c : EnhancedChunk) :
    (contentStep st c).documents_processed = st.documents_processed ∧
    (contentStep st c).errors = st.errors ∧
    (contentStep st c).chunks_created = st.chunks_created ∧
    (contentStep st c).mathematical_content_processed =
      st.mathematical_content_processed +
        (if c.is_mathematical then 1 else 0) ∧
    (contentStep st c).assets_processed =
      st.assets_processed + (if c.is_asset then 1 else 0) ∧
    (contentStep st c).glossary_terms_extracted =
      st.glossary_terms_extracted + (if c.is_glossary then 1 else 0) := by
  unfold contentStep
  split_ifs <;> simp_all

/-- Field behaviour of `_update_content_stats` over a chunk list. -/
theorem update_content_stats_fields (chunks : List EnhancedChunk) :
    ∀ st : EnhancedProcessingStats,
    (update_content_stats st chunks).documents_processed
      = st.documents_processed ∧
    (update_content_stats st chunks).errors = st.errors ∧
    (update_content_stats st chunks).chunks_created = st.chunks_created ∧
    (update_content_stats st chunks).mathematical_content_processed
      = st.mathematical_content_processed +
          chunks.countP (fun c => c.is_mathematical) ∧
    (update_content_stats st chunks).assets_processed
      = st.assets_processed + chunks.countP (fun c => c.is_asset) ∧
    (update_content_stats st chunks).glossary_terms_extracted
      = st.glossary_terms_extracted +
          chunks.countP (fun c => c.is_glossary) := by
  induction chunks with
  | nil => intro st; simp [update_content_stats]
  | cons c cs ih =>
    intro st
    have hfold : update_content_stats st (c :: cs)
        = update_content_stats (contentStep st c) cs := rfl
    obtain ⟨s1, s2, s3, s4, s5, s6⟩ := contentStep_fields st c
    obtain ⟨h1, h2, h3, h4, h5, h6⟩ := ih (contentStep st c)
    rw [hfold]
    refine ⟨by rw [h1, s1], by rw [h2, s2], by rw [h3, s3], ?_, ?_, ?_⟩
    · rw [h4, s4, List.countP_cons]
      by_cases hc : c.is_mathematical <;> simp [hc] <;> omega
    · rw [h5, s5, List.countP_cons]
      by_cases hc : c.is_asset <;> simp [hc] <;> omega
    · rw [h6, s6, List.countP_cons]
      by_cases hc : c.is_glossary <;> simp [hc] <;> omega

/-- Field behaviour of the per-document loop of `load_documents_enhanced`. -/
theorem loadLoop_fields (results : List (Except String (List EnhancedChunk))) :
    ∀ (st : EnhancedProcessingStats) (acc : List EnhancedChunk),
    (loadLoop st acc results).1.documents_processed
      = st.documents_processed + results.countP (fun r => isOkResult r) ∧
    (loadLoop st acc results).1.errors
      = st.errors + results.countP (fun r => !isOkResult r) ∧
    (loadLoop st acc results).1.chunks_created = st.chunks_created ∧
    (loadLoop st acc results).1.mathematical_content_processed
      = st.mathematical_content_processed ∧
    (loadLoop st acc results).1.assets_processed = st.assets_processed ∧
    (loadLoop st acc results).1.glossary_terms_extracted
      = st.glossary_terms_extracted ∧
    (loadLoop st acc results).2 = acc ++ collectOk results := by
  induction results with
  | nil => intro st acc; simp [loadLoop, collectOk]
  | cons r rest ih =>
    intro st acc
    cases r with
    | ok chunks =>
      obtain ⟨h1, h2, h3, h4, h5, h6, h7⟩ := ih
        { st with documents_processed := st.documents_processed + 1 }
        (acc ++ chunks)
      have hstep : loadLoop st acc (Except.ok chunks :: rest)
          = loadLoop
              { st with documents_processed := st.documents_processed + 1 }
              (acc ++ chunks) rest := rfl
      rw [hstep]
      refine ⟨?_, ?_, h3, h4, h5, h6, ?_⟩
      · rw [h1, List.countP_cons]
        show st.documents_processed + 1 +
            List.countP (fun r => isOkResult r) rest
          = st.documents_processed +
            (List.countP (fun r => isOkResult r) rest + 1)
        omega
      · rw [h2, List.countP_cons]
        rfl
      · rw [h7, collectOk, List.append_assoc]
    | error msg =>
      obtain ⟨h1, h2, h3, h4, h5, h6, h7⟩ := ih
        { st with errors := st.errors + 1 } acc
      have hstep : loadLoop st acc (Except.error msg :: rest)
          = loadLoop { st with errors := st.errors + 1 } acc rest := rfl
      rw [hstep]
      refine ⟨?_, ?_, h3, h4, h5, h6, ?_⟩
      · rw [h1, List.countP_cons]
        rfl
      · rw [h2, List.countP_cons]
        show st.errors + 1 + List.countP (fun r => !isOkResult r) rest
          = st.errors + (List.countP (fun r => !isOkResult r) rest + 1)
        omega
      · rw [h7, collectOk]

/-- C9: over one batch load, `documents_processed` grows by exactly the
number of successfully processed documents, `errors` by exactly the number of
caught per-document exceptions, the returned chunk list is the concatenation
of the successful documents' chunks, `chunks_created` equals its length, and
each content counter grows by exactly the number of chunks carrying the
corresponding specialized payload. -/
theorem c9_load_statistics (init : EnhancedProcessingStats)
    (results : List (Except String (List EnhancedChunk))) :
    (load_documents_enhanced init results).1.documents_processed
      = init.documents_processed + results.countP (fun r => isOkResult r) ∧
    (load_documents_enhanced init results).1.errors
      = init.errors + results.countP (fun r => !isOkResult r) ∧
    (load_documents_enhanced init results).2 = collectOk results ∧
    (load_documents_enhanced init results).1.chunks_created
      = (load_documents_enhanced init results).2.length ∧
    (load_documents_enhanced init results).1.mathematical_content_processed
      = init.mathematical_content_processed +
          (collectOk results).countP (fun c => c.is_mathematical) ∧
    (load_documents_enhanced init results).1.assets_processed
      = init.assets_processed +
          (collectOk results).countP (fun c => c.is_asset) ∧
    (load_documents_enhanced init results).1.glossary_terms_extracted
      = init.glossary_terms_extracted +
          (collectOk results).countP (fun c => c.is_glossary) := by
  obtain ⟨l1, l2, l3, l4, l5, l6, l7⟩ := loadLoop_fields results init []
  have hchunks : (loadLoop init [] results).2 = collectOk results := by
    rw [l7, List.nil_append]
  have hdef1 : (load_documents_enhanced init results).1
      = update_content_stats
          { (loadLoop init [] results).1 with
              chunks_created := (loadLoop init [] results).2.length }
          (loadLoop init [] results).2 := rfl
  have hdef2 : (load_documents_enhanced init results).2
      = (loadLoop init [] results).2 := rfl
  obtain ⟨u1, u2, u3, u4, u5, u6⟩ := update_content_stats_fields
    (loadLoop init [] results).2
    { (loadLoop init [] results).1 with
        chunks_created := (loadLoop init [] results).2.length }
  have b1 : ({ (loadLoop init [] results).1 with
      chunks_created := (loadLoop init [] results).2.length } :
      EnhancedProcessingStats).documents_processed
    = (loadLoop init [] results).1.documents_processed := rfl
  have b2 : ({ (loadLoop init [] results).1 with
      chunks_created := (loadLoop init [] results).2.length } :
      EnhancedProcessingStats).errors
    = (loadLoop init [] results).1.errors := rfl
  have b3 : ({ (loadLoop init [] results).1 with
      chunks_created := (loadLoop init [] results).2.length } :
      EnhancedProcessingStats).chunks_created
    = (loadLoop init [] results).2.length := rfl
  have b4 : ({ (loadLoop init [] results).1 with
      chunks_created := (loadLoop init [] results).2.length } :
      EnhancedProcessingStats).mathematical_content_processed
    = (loadLoop init [] results).1.mathematical_content_processed := rfl
  have b5 : ({ (loadLoop init [] results).1 with
      chunks_created := (loadLoop init [] results).2.length } :
      EnhancedProcessingStats).assets_processed
    = (loadLoop init [] results).1.assets_processed := rfl
  have b6 : ({ (loadLoop init [] results).1 with
      chunks_created := (loadLoop init [] results).2.length } :
      EnhancedProcessingStats).glossary_terms_extracted
    = (loadLoop init [] results).1.glossary_terms_extracted := rfl
  refine ⟨?_, ?_, ?_, ?_, ?_, ?_, ?_⟩
  · rw [hdef1, u1, b1, l1]
  · rw [hdef1, u2, b2, l2]
  · rw [hdef2, hchunks]
  · rw [hdef1, u3, b3, hdef2]
  · rw [hdef1, u4, b4, l4, hchunks]
  · rw [hdef1, u5, b5, l5, hchunks]
  · rw [hdef1, u6, b6, l6, hchunks]

/-- Appending characters never decreases the identifier-match count. -/
theorem countIdentsGo_le_append (t : List Char) :
    ∀ (s : List Char) (b : Bool),
    countIdentsGo b s ≤ countIdentsGo b (s ++ t) := by
  intro s
  induction s with
  | nil => intro b; exact Nat.zero_le _
  | cons c cs ih =>
    intro b
    simp only [List.cons_append, countIdentsGo]
    split_ifs
    · exact ih true
    · exact Nat.add_le_add_left (ih true) 1
    · exact ih false

/-- Appending characters never decreases the command-match count. -/
theorem countCommandsGo_le_append (t : List Char) :
    ∀ (s : List Char) (st : CmdSt),
    countCommandsGo st s ≤ countCommandsGo st (s ++ t) := by
  intro s
  induction s with
  | nil => intro st; cases st <;> exact Nat.zero_le _
  | cons c cs ih =>
    intro st
    cases st <;> simp only [List.cons_append, countCommandsGo] <;>
      split_ifs <;>
        first
          | exact ih CmdSt.outside
          | exact ih CmdSt.afterBackslash
          | exact ih CmdSt.inCommand
          | exact Nat.add_le_add_left (ih CmdSt.inCommand) 1

/-- Appending characters never decreases the numeric-literal match count. -/
theorem countNumbersGo_le_append (t : List Char) :
    ∀ (s : List Char) (st : NumSt),
    countNumbersGo st s ≤ countNumbersGo st (s ++ t) := by
  intro s
  induction s with
  | nil => intro st; cases st <;> exact Nat.zero_le _
  | cons c cs ih =>
    intro st
    cases st <;> simp only [List.cons_append, countNumbersGo] <;>
      split_ifs <;>
        first
          | exact ih NumSt.outside
          | exact ih NumSt.intPart
          | exact ih NumSt.fracPart
          | exact Nat.add_le_add_left (ih NumSt.intPart) 1

/-- Appending characters never decreases a character-class count. -/
theorem countP_le_append (p : Char → Bool) (s t : List Char) :
    s.countP p ≤ (s ++ t).countP p := by
  rw [List.countP_append]
  exact Nat.le_add_right _ _

/-- Complexity scores are nonnegative. -/
theorem calculate_complexity_nonneg (s : String) :
    0 ≤ calculate_complexity s := by
  unfold calculate_complexity
  split_ifs
  · exact le_refl 0
  · refine le_min ?_ (by norm_num)
    positivity

/-- Complexity scores never exceed the cap `10.0`. -/
theorem calculate_complexity_le_ten (s : String) :
    calculate_complexity s ≤ 10 := by
  unfold calculate_complexity
  split_ifs
  · norm_num
  · exact min_le_right _ _

/-- Appending any string never decreases the complexity score. -/
theorem calculate_complexity_mono (s t : String) :
    calculate_complexity s ≤ calculate_complexity (s ++ t) := by
  by_cases hs : s = ""
  · subst hs
    rw [show ("" : String) ++ t = t from rfl,
        show calculate_complexity "" = 0 from rfl]
    exact calculate_complexity_nonneg t
  · have hst : s ++ t ≠ "" := by
      intro h
      apply hs
      have hd := congrArg String.data h
      have hs' : s.data = [] := (List.append_eq_nil.mp hd).1
      cases s with
      | mk ls =>
        have : ls = [] := hs'
        rw [this]
    unfold calculate_complexity
    rw [if_neg hs, if_neg hst,
        show (s ++ t).data = s.data ++ t.data from rfl]
    refine min_le_min ?_ (le_refl 10)
    have c1 : (countCommands s.data : ℚ) ≤
        (countCommands (s.data ++ t.data) : ℚ) :=
      Nat.cast_le.mpr (countCommandsGo_le_append t.data s.data CmdSt.outside)
    have c2 : (countOps s.data : ℚ) ≤ (countOps (s.data ++ t.data) : ℚ) :=
      Nat.cast_le.mpr (countP_le_append _ s.data t.data)
    have c3 : (countBrackets s.data : ℚ) ≤
        (countBrackets (s.data ++ t.data) : ℚ) :=
      Nat.cast_le.mpr (countP_le_append _ s.data t.data)
    have c4 : (countIdents s.data : ℚ) ≤
        (countIdents (s.data ++ t.data) : ℚ) :=
      Nat.cast_le.mpr (countIdentsGo_le_append t.data s.data false)
    have c5 : (countNumbers s.data : ℚ) ≤
        (countNumbers (s.data ++ t.data) : ℚ) :=
      Nat.cast_le.mpr (countNumbersGo_le_append t.data s.data NumSt.outside)
    exact add_le_add
      (add_le_add
        (add_le_add (mul_le_mul_of_nonneg_right c1 (by norm_num))
          (mul_le_mul_of_nonneg_right c2 (by norm_num)))
        (mul_le_mul_of_nonneg_right c3 (by norm_num)))
      (mul_le_mul_of_nonneg_right (add_le_add c4 c5) (by norm_num))

/-- C7: appending a well-formed structural command, operator or variable
token never decreases the complexity score, and every score lies in
`[0, 10.0]`.  (The monotonicity holds for an arbitrary appended string; the
well-formedness hypothesis of the claim is not even needed.) -/
theorem c7_complexity_monotone (s t : String) (h : WellFormedToken t) :
    calculate_complexity s ≤ calculate_complexity (s ++ t) ∧
    0 ≤ calculate_complexity s ∧ calculate_complexity s ≤ 10 :=
  ⟨calculate_complexity_mono s t, calculate_complexity_nonneg s,
   calculate_complexity_le_ten s⟩

/-- Witness for C7 at a concrete equation and appended command token. -/
theorem c7_witness :
    calculate_complexity "E=mc^2" ≤
      calculate_complexity ("E=mc^2" ++ "\\alpha") ∧
    0 ≤ calculate_complexity "E=mc^2" ∧
    calculate_complexity "E=mc^2" ≤ 10 :=
  c7_complexity_monotone "E=mc^2" "\\alpha" (Or.inl (by decide))

/-- Characters of a stripped string are characters of the original. -/
theorem mem_pyStrip (s : String) (x : Char) (hx : x ∈ (pyStrip s).data) :
    x ∈ s.data := by
  have h1 : x ∈ ((s.data.dropWhile isPyWs).reverse.dropWhile isPyWs) :=
    List.mem_reverse.mp hx
  have h2 : x ∈ (s.data.dropWhile isPyWs).reverse :=
    (List.dropWhile_sublist isPyWs).subset h1
  exact (List.dropWhile_sublist isPyWs).subset (List.mem_reverse.mp h2)

/-- A cons pattern starting with a different character is not a prefix. -/
theorem isPrefixOf_cons_false (p0 c : Char) (pr cs : List Char)
    (h : p0 ≠ c) : ((p0 :: pr).isPrefixOf (c :: cs)) = false := by
  rw [show ((p0 :: pr).isPrefixOf (c :: cs))
      = ((p0 == c) && pr.isPrefixOf cs) from rfl,
    beq_eq_false_iff_ne.mpr h]
  rfl

/-- `stripPrefixCh` fails when the heads differ. -/
theorem stripPrefixCh_cons_none (p0 c : Char) (pr cs : List Char)
    (h : p0 ≠ c) : stripPrefixCh (p0 :: pr) (c :: cs) = none := by
  unfold stripPrefixCh
  rw [isPrefixOf_cons_false p0 c pr cs h]
  rfl

/-- A literal matcher whose pattern starts with a backslash never fires at a
non-backslash character. -/
theorem litMatcher_cons_none (pr repl cs : List Char) (c : Char)
    (hc : c ≠ '\\') : litMatcher ('\\' :: pr) repl (c :: cs) = none := by
  unfold litMatcher
  rw [isPrefixOf_cons_false '\\' c pr cs (Ne.symm hc)]
  rfl

/-- The fraction matcher never fires at a non-backslash character. -/
theorem fracMatcher_none (c : Char) (cs : List Char) (hc : c ≠ '\\') :
    fracMatcher (c :: cs) = none := by
  unfold fracMatcher
  rw [show ("\\frac".data : List Char) = '\\' :: "frac".data from rfl,
    stripPrefixCh_cons_none '\\' c _ _ (Ne.symm hc)]

/-- The root matcher never fires at a non-backslash character. -/
theorem sqrtMatcher_none (c : Char) (cs : List Char) (hc : c ≠ '\\') :
    sqrtMatcher (c :: cs) = none := by
  unfold sqrtMatcher
  rw [show ("\\sqrt".data : List Char) = '\\' :: "sqrt".data from rfl,
    stripPrefixCh_cons_none '\\' c _ _ (Ne.symm hc)]

/-- The sum/integral matcher (whose command starts with a backslash) never
fires at a non-backslash character. -/
theorem supSubMatcher_none (tl name cs : List Char) (c : Char)
    (hc : c ≠ '\\') :
    supSubMatcher ('\\' :: tl) name (c :: cs) = none := by
  unfold supSubMatcher
  rw [stripPrefixCh_cons_none '\\' c _ _ (Ne.symm hc)]

/-- A rewrite pass whose matcher only fires at backslashes leaves a
backslash-free text unchanged. -/
theorem rewriteGo_eq_self (mt : List Char → Option (List Char × List Char))
    (hm : ∀ c cs, c ≠ '\\' → mt (c :: cs) = none) :
    ∀ (fuel : Nat) (l : List Char), '\\' ∉ l → rewriteGo mt fuel l = l := by
  intro fuel
  induction fuel with
  | zero => intro l _; cases l <;> rfl
  | succ n ih =>
    intro l hl
    cases l with
    | nil => rfl
    | cons c cs =>
      have hc : c ≠ '\\' := fun h => hl (by rw [← h]; exact List.mem_cons_self c cs)
      show (match mt (c :: cs) with
            | some (r, rest) => r ++ rewriteGo mt n rest
            | none => c :: rewriteGo mt n cs) = c :: cs
      rw [hm c cs hc]
      show c :: rewriteGo mt n cs = c :: cs
      exact congrArg (c :: ·)
        (ih cs (fun hmem => hl (List.mem_cons_of_mem c hmem)))

/-- String-level version of `rewriteGo_eq_self`. -/
theorem runRewrite_eq_self (mt : List Char → Option (List Char × List Char))
    (hm : ∀ c cs, c ≠ '\\' → mt (c :: cs) = none) (s : String)
    (hs : '\\' ∉ s.data) : runRewrite mt s = s := by
  unfold runRewrite
  rw [rewriteGo_eq_self mt hm s.data.length s.data hs]

/-- A literal substitution whose pattern starts with a backslash leaves a
backslash-free string unchanged. -/
theorem pyReplaceAll_eq_self (s pat repl : String)
    (hpat : pat.data.head? = some '\\') (hs : '\\' ∉ s.data) :
    pyReplaceAll s pat repl = s := by
  unfold pyReplaceAll
  refine runRewrite_eq_self _ ?_ s hs
  intro c cs hc
  cases hpd : pat.data with
  | nil => rw [hpd] at hpat; simp at hpat
  | cons p0 pr =>
    rw [hpd] at hpat
    have hp0 : p0 = '\\' := by simpa using hpat
    subst hp0
    exact litMatcher_cons_none pr repl.data cs c hc

/-- Folding backslash-pattern substitutions over a backslash-free string is
the identity. -/
theorem foldl_replace_eq_self (ps : List String)
    (hp : ∀ p ∈ ps, p.data.head? = some '\\') :
    ∀ s : String, '\\' ∉ s.data →
    ps.foldl (fun acc p => pyReplaceAll acc p "") s = s := by
  induction ps with
  | nil => intro s _; rfl
  | cons p ps ih =>
    intro s hs
    show ps.foldl (fun acc p => pyReplaceAll acc p "") (pyReplaceAll s p "")
      = s
    rw [pyReplaceAll_eq_self s p "" (hp p (List.mem_cons_self p ps)) hs]
    exact ih (fun q hq => hp q (List.mem_cons_of_mem p hq)) s hs

/-- Folding backslash-pattern pair substitutions over a backslash-free string
is the identity. -/
theorem foldl_replace_pairs_eq_self (ps : List (String × String))
    (hp : ∀ p ∈ ps, p.1.data.head? = some '\\') :
    ∀ s : String, '\\' ∉ s.data →
    ps.foldl (fun acc pr => pyReplaceAll acc pr.1 pr.2) s = s := by
  induction ps with
  | nil => intro s _; rfl
  | cons p ps ih =>
    intro s hs
    show ps.foldl (fun acc pr => pyReplaceAll acc pr.1 pr.2)
      (pyReplaceAll s p.1 p.2) = s
    rw [pyReplaceAll_eq_self s p.1 p.2 (hp p (List.mem_cons_self p ps)) hs]
    exact ih (fun q hq => hp q (List.mem_cons_of_mem p hq)) s hs

/-- On markup with no backslash, every substitution pass of
`_normalize_latex` is the identity and normalization is just the double
strip. -/
theorem normalize_latex_eq_strip (tex : String) (h : '\\' ∉ tex.data) :
    normalize_latex tex = pyStrip (pyStrip tex) := by
  by_cases h0 : tex = ""
  · subst h0; rfl
  · have hn0 : '\\' ∉ (pyStrip tex).data := fun hx => h (mem_pyStrip tex _ hx)
    have e1 : envPatterns.foldl (fun acc p => pyReplaceAll acc p "")
        (pyStrip tex) = pyStrip tex :=
      foldl_replace_eq_self envPatterns (by decide) _ hn0
    have e2 : runRewrite fracMatcher (pyStrip tex) = pyStrip tex :=
      runRewrite_eq_self _ (fun c cs hc => fracMatcher_none c cs hc) _ hn0
    have e3 : runRewrite sqrtMatcher (pyStrip tex) = pyStrip tex :=
      runRewrite_eq_self _ (fun c cs hc => sqrtMatcher_none c cs hc) _ hn0
    have e4 : runRewrite (supSubMatcher "\\sum_".data "sum".data)
        (pyStrip tex) = pyStrip tex :=
      runRewrite_eq_self _
        (fun c cs hc => supSubMatcher_none "sum_".data "sum".data cs c hc)
        _ hn0
    have e5 : runRewrite (supSubMatcher "\\int_".data "int".data)
        (pyStrip tex) = pyStrip tex :=
      runRewrite_eq_self _
        (fun c cs hc => supSubMatcher_none "int_".data "int".data cs c hc)
        _ hn0
    have e6 : greekPairs.foldl (fun acc pr => pyReplaceAll acc pr.1 pr.2)
        (pyStrip tex) = pyStrip tex :=
      foldl_replace_pairs_eq_self greekPairs (by decide) _ hn0
    unfold normalize_latex
    rw [if_neg h0]
    show pyStrip (greekPairs.foldl (fun acc pr => pyReplaceAll acc pr.1 pr.2)
        (runRewrite (supSubMatcher "\\int_".data "int".data)
          (runRewrite (supSubMatcher "\\sum_".data "sum".data)
            (runRewrite sqrtMatcher (runRewrite fracMatcher
              (envPatterns.foldl (fun acc p => pyReplaceAll acc p "")
                (pyStrip tex))))))) = pyStrip (pyStrip tex)
    rw [e1, e2, e3, e4, e5, e6]

/-- On a non-empty input, the normal (exception-free) path of
`process_equation` produces `math_norm`, `math_tokens` and `math_kgrams` via
the normalize/tokenize/k-gram chain. -/
theorem process_equation_fields (canon : String → Option String)
    (tex : String) (h : tex ≠ "") :
    (process_equation canon tex).math_norm = normalize_latex tex ∧
    (process_equation canon tex).math_tokens
      = tokenize_equation (normalize_latex tex) ∧
    (process_equation canon tex).math_kgrams
      = generate_kgrams (tokenize_equation (normalize_latex tex)) 3 := by
  have hpe : process_equation canon tex = process_equation_body canon tex := by
    unfold process_equation process_equation_with
    rw [if_neg h]
  rw [hpe]
  exact ⟨rfl, rfl, rfl⟩

/-- C3 counterexample: on the concrete markup strings `$x$` and `\kappa`,
`process_equation` runs the normal (exception-free) path — `error` is absent —
yet the normalized form still contains a `$` respectively a backslash:
`_normalize_latex` never removes `$` characters or unrecognized commands. -/
theorem c3_norm_counterexample :
    (process_equation (fun _ => none) "$x$").error = none ∧
    '$' ∈ (process_equation (fun _ => none) "$x$").math_norm.data ∧
    (process_equation (fun _ => none) "\\kappa").error = none ∧
    '\\' ∈ (process_equation (fun _ => none) "\\kappa").math_norm.data := by
  decide

/-- C3 amended: for every markup string that itself contains no backslash and
no `$`, the normalized form produced by the exception-free path of
`process_equation` contains no backslash and no `$` (normalization only
rewrites a fixed table of backslash commands and strips whitespace; it never
introduces markup characters, but it also never removes a `$` or an
unrecognized command that was already present). -/
theorem c3_norm_amended (canon : String → Option String) (tex : String)
    (h1 : '\\' ∉ tex.data) (h2 : '$' ∉ tex.data) :
    '\\' ∉ (process_equation canon tex).math_norm.data ∧
    '$' ∉ (process_equation canon tex).math_norm.data := by
  by_cases h0 : tex = ""
  · subst h0
    constructor
    · show '\\' ∉ ("" : String).data
      exact List.not_mem_nil _
    · show '$' ∉ ("" : String).data
      exact List.not_mem_nil _
  · obtain ⟨hnorm, -, -⟩ := process_equation_fields canon tex h0
    rw [hnorm, normalize_latex_eq_strip tex h1]
    exact ⟨fun hx => h1 (mem_pyStrip _ _ (mem_pyStrip _ _ hx)),
           fun hx => h2 (mem_pyStrip _ _ (mem_pyStrip _ _ hx))⟩

/-- Witness for C3 (amended) at a concrete markup-free input. -/
theorem c3_witness :
    '\\' ∉ (process_equation (fun _ => none) "x + y*z").math_norm.data ∧
    '$' ∉ (process_equation (fun _ => none) "x + y*z").math_norm.data :=
  c3_norm_amended (fun _ => none) "x + y*z" (by decide) (by decide)

/-- The join of a take-prefix is a prefix of the join. -/
theorem pyJoinGo_prefix_of_take (sep : List Char) :
    ∀ (xs : List (List Char)) (n : Nat),
    pyJoinGo sep (xs.take n) <+: pyJoinGo sep xs := by
  intro xs
  induction xs with
  | nil =>
    intro n
    rw [List.take_nil]
  | cons x xs ih =>
    intro n
    cases n with
    | zero => exact List.nil_prefix
    | succ n =>
      rw [List.take_succ_cons]
      cases hxs : xs.take n with
      | nil =>
        cases xs with
        | nil => exact List.prefix_refl _
        | cons y ys =>
          show x <+: x ++ sep ++ pyJoinGo sep (y :: ys)
          exact ⟨sep ++ pyJoinGo sep (y :: ys),
                 (List.append_assoc x sep _).symm⟩
      | cons t0 ts =>
        cases xs with
        | nil => simp at hxs
        | cons y ys =>
          show x ++ sep ++ pyJoinGo sep (t0 :: ts) <+:
               x ++ sep ++ pyJoinGo sep (y :: ys)
          have hpre : pyJoinGo sep (t0 :: ts) <+: pyJoinGo sep (y :: ys) := by
            rw [← hxs]
            exact ih n
          obtain ⟨u, hu⟩ := hpre
          exact ⟨u, by rw [List.append_assoc, hu]⟩

/-- The join of a drop-suffix is a suffix of the join. -/
theorem pyJoinGo_drop_suffix (sep : List Char) :
    ∀ (xs : List (List Char)) (i : Nat),
    pyJoinGo sep (xs.drop i) <:+ pyJoinGo sep xs := by
  intro xs
  induction xs with
  | nil =>
    intro i
    rw [List.drop_nil]
  | cons x xs ih =>
    intro i
    cases i with
    | zero => exact List.suffix_refl _
    | succ i =>
      rw [List.drop_succ_cons]
      refine (ih i).trans ?_
      cases xs with
      | nil => exact List.nil_suffix
      | cons y ys =>
        show pyJoinGo sep (y :: ys) <:+ x ++ sep ++ pyJoinGo sep (y :: ys)
        exact ⟨x ++ sep, rfl⟩

/-- The space-join of any contiguous token slice is a contiguous substring
(infix) of the space-join of the whole token list. -/
theorem pyJoin_infix_of_slice (tokens : List String) (i k : Nat) :
    (pyJoin " " ((tokens.drop i).take k)).data
      <:+: (pyJoin " " tokens).data := by
  have hdata : ∀ xs : List String,
      (pyJoin " " xs).data = pyJoinGo (" ".data) (xs.map String.data) :=
    fun _ => rfl
  rw [hdata, hdata, List.map_take, List.map_drop]
  exact (pyJoinGo_prefix_of_take " ".data _ k).isInfix.trans
    (pyJoinGo_drop_suffix " ".data _ i).isInfix

/-- Every produced k-gram is the join of a size-`k` window of the tokens. -/
theorem mem_generate_kgrams (tokens : List String) (k : Nat) (g : String)
    (hg : g ∈ generate_kgrams tokens k) :
    ∃ i, i + k ≤ tokens.length ∧
      g = pyJoin " " ((tokens.drop i).take k) := by
  unfold generate_kgrams at hg
  split_ifs at hg with hcond
  · simp at hg
  · obtain ⟨i, hi, rfl⟩ := List.mem_map.mp hg
    rw [List.mem_range] at hi
    exact ⟨i, by omega, rfl⟩

/-- Fewer than three tokens produce no k-grams (window size 3). -/
theorem generate_kgrams_short (tokens : List String)
    (h : tokens.length < 3) : generate_kgrams tokens 3 = [] := by
  unfold generate_kgrams
  rw [show tokens.length + 1 - 3 = 0 from by omega]
  simp

/-- C8: the k-gram list of `process_equation` is the size-3 sliding window
over its token list — empty when fewer than 3 tokens exist — and every
k-gram is the space-join of 3 consecutive tokens, hence a contiguous
substring of the space-joined token sequence. -/
theorem c8_kgram_consistency (canon : String → Option String)
    (tex : String) :
    (process_equation canon tex).math_kgrams
      = generate_kgrams (process_equation canon tex).math_tokens 3 ∧
    ((process_equation canon tex).math_tokens.length < 3 →
      (process_equation canon tex).math_kgrams = []) ∧
    (∀ g ∈ (process_equation canon tex).math_kgrams,
      ∃ i, i + 3 ≤ (process_equation canon tex).math_tokens.length ∧
        g = pyJoin " "
          (((process_equation canon tex).math_tokens.drop i).take 3) ∧
        g.data <:+:
          (pyJoin " " (process_equation canon tex).math_tokens).data) := by
  have hk : (process_equation canon tex).math_kgrams
      = generate_kgrams (process_equation canon tex).math_tokens 3 := by
    by_cases h0 : tex = ""
    · subst h0; rfl
    · obtain ⟨-, htok, hkg⟩ := process_equation_fields canon tex h0
      rw [htok, hkg]
  refine ⟨hk, fun hlen => by rw [hk]; exact generate_kgrams_short _ hlen, ?_⟩
  intro g hg
  rw [hk] at hg
  obtain ⟨i, hik, hgeq⟩ := mem_generate_kgrams _ 3 g hg
  exact ⟨i, hik, hgeq, by rw [hgeq]; exact pyJoin_infix_of_slice _ i 3⟩

/-- Witness for C8 at a concrete equation and a concrete produced k-gram. -/
theorem c8_witness :
    ∃ i, i + 3 ≤ (process_equation (fun _ => none) "a+b=c+d").math_tokens.length ∧
      "a + b" = pyJoin " "
        (((process_equation (fun _ => none) "a+b=c+d").math_tokens.drop i).take 3) ∧
      "a + b".data <:+:
        (pyJoin " " (process_equation (fun _ => none) "a+b=c+d").math_tokens).data :=
  (c8_kgram_consistency (fun _ => none) "a+b=c+d").2.2 "a + b" (by decide)

end SciRag
